import Mathlib

/-!
Verification of the mocksy matching core (src/mocksy/matcher.go).

The development shallowly embeds the matcher: Go strings are Lean strings
(equality-only uses, plus byte-level helpers where the source indexes bytes),
Go byte slices are lists of Nat, the global history list is passed as explicit
state, and writes to the operational log (stderr) together with reads of the
request body stream are recorded as an explicit event trace.
-/

set_option maxHeartbeats 1000000

namespace Mocksy

/-- Modelled from the spec (section 3, Host): identity of a network endpoint,
with the literal host string and the resolved ip. The Go struct itself is not
part of the matcher source file; its two fields are exactly the ones
matcher.go reads (Host.Value, Host.Ip). -/
structure Host where
  Value : String
  Ip : String
deriving DecidableEq, Repr, Inhabited

/-- Modelled from the spec (section 3, Item request payload): the raw
request-body payload, an opaque byte sequence. matcher.go accesses it as
Item.Request.Value ([]byte), modelled as a list of byte values. -/
structure Payload where
  Value : List Nat
deriving DecidableEq, Repr, Inhabited

/-- Modelled from the spec (section 3, Item): one recorded request/response
pair. Fields are the ones matcher.go reads: Host, Port, Protocol, Method,
Path, Request. The response payload is opaque cargo never touched by the
matching core and is omitted. -/
structure Item where
  Host : Host
  Port : String
  Protocol : String
  Method : String
  Path : String
  Request : Payload
deriving DecidableEq, Repr, Inhabited

/-- The projection of Go http.Request that matcher.go reads: req.Host,
the X-Forwarded-For header value (empty string when absent), req.RemoteAddr,
req.Method, req.Proto, req.URL.EscapedPath(), req.URL.Port(), and the body
stream. Reading the body (ioutil.ReadAll) either yields the bytes or an
error; Body models the outcome of that single read. -/
structure Request where
  Host : String
  XForwardedFor : String
  RemoteAddr : String
  Method : String
  Proto : String
  Path : String
  Port : String
  Body : Except String (List Nat)
deriving Repr

/-- Events observed by the outside world during a match call: a read of the
incoming request body stream, and a line written to the operational log
(stderr). -/
inductive Ev where
  | readBody : Ev
  | logErr : String → Ev
deriving DecidableEq, Repr

/-- findHost (matcher.go lines 47-61): fills Host.Value with the verbatim
req.Host string; Ip is the X-Forwarded-For header when non-empty, else
RemoteAddr truncated at the first colon (byte positions, as in
strings.Index / Go slicing). -/
def findHost (req : Request) : Host :=
  let value := req.Host
  let ip :=
    if req.XForwardedFor.length > 0 then
      req.XForwardedFor
    else
      let ip0 := req.RemoteAddr
      if ip0.posOf ':' < ip0.endPos then
        ip0.extract 0 (ip0.posOf ':')
      else
        ip0
  { Value := value, Ip := ip }

/-- filterByHost (matcher.go lines 64-72): starts from an empty fresh list and
appends every element of lst whose host matches host by value or by ip. -/
def filterByHost (lst : List Item) (host : Host) : List Item :=
  lst.foldl
    (fun newlst e =>
      if e.Host.Value == host.Value || e.Host.Ip == host.Ip then
        newlst ++ [e]
      else
        newlst)
    []

/-- compareArgs (matcher.go lines 76-83): the comparison context built once
per ranking pass. -/
structure compareArgs where
  Request : List Nat
  Host : Host
  Port : String
  Protocol : String
  Method : String
  Path : String
deriving DecidableEq, Repr

/-- The longestPrefix helper inside fuzzyComparer (matcher.go lines 115-126):
returns the number of common bytes at the beginning of a and b, plus whether
the strings are equal. Go indexes raw bytes, so the count runs over the UTF-8
bytes of the strings. Only the second component is ever used in a decision. -/
def longestPrefixFn (a b : String) : Nat × Bool :=
  if a = b then
    (0, true)
  else
    (commonBytes a.toUTF8.toList b.toUTF8.toList, false)
where
  commonBytes : List UInt8 → List UInt8 → Nat
    | x :: xs, y :: ys => if x = y then commonBytes xs ys + 1 else 0
    | _, _ => 0

/-- The Less closure returned by fuzzyComparer (matcher.go lines 127-207),
expressed on the two items ra = reqs[i], rb = reqs[j] it reads. The structure
mirrors the source: path exact match, then exact body match, then the
body-length closeness signal aMatchesMost, then the method check (whose two
branches both return the method comparison), then protocol, then port, then
the closeness fallback. -/
def fuzzyLess (args : compareArgs) (ra rb : Item) : Bool :=
  let perfectMatchA := (longestPrefixFn ra.Path args.Path).2
  let perfectMatchB := (longestPrefixFn rb.Path args.Path).2
  if perfectMatchA ≠ perfectMatchB then
    perfectMatchA
  else
    let reqAExact := ra.Request.Value == args.Request
    let reqBExact := rb.Request.Value == args.Request
    if reqAExact ≠ reqBExact then
      reqAExact
    else
      let diffLenA0 : Int := (ra.Request.Value.length : Int) - (args.Request.length : Int)
      let diffLenB0 : Int := (rb.Request.Value.length : Int) - (args.Request.length : Int)
      let diffLenA := if diffLenA0 < 0 then -diffLenA0 else diffLenA0
      let diffLenB := if diffLenB0 < 0 then -diffLenB0 else diffLenB0
      let aMatchesMost := decide (diffLenA < diffLenB)
      if (ra.Method == args.Method) ≠ (rb.Method == args.Method) then
        if (ra.Method == args.Method) ≠ aMatchesMost then
          ra.Method == args.Method
        else
          ra.Method == args.Method
      else if (ra.Protocol == args.Protocol) ≠ (rb.Protocol == args.Protocol) then
        ra.Protocol == args.Protocol
      else if (ra.Port == args.Port) ≠ (rb.Port == args.Port) then
        ra.Port == args.Port
      else
        aMatchesMost

/-- fuzzyComparer (matcher.go lines 111-207): returns the index-based Less
function over the current contents of reqs. -/
def fuzzyComparer (reqs : Array Item) (args : compareArgs) : Nat → Nat → Bool :=
  fun i j => fuzzyLess args (reqs.getD i default) (reqs.getD j default)

/-- In-bounds swap of two array cells, as data.Swap(i, j) in the sort. -/
def arrSwap (arr : Array Item) (i j : Nat) : Array Item :=
  let vi := arr.getD i default
  let vj := arr.getD j default
  (arr.setD i vj).setD j vi

/-- The gap-6 Shell-sort pass of Go sort.quickSort (src/sort/sort.go of the
Go releases contemporary with this code, 1.8 through 1.18), run for slices of
at most 12 elements: for i from a+6 while i < b, swap cells i and i-6 when
data.Less(i, i-6). Here a = 0 and fuel bounds the loop counter. Each Less
call reads the current (partially permuted) array, as in the source. -/
def shellPass6 (less : Item → Item → Bool) : Nat → Array Item → Nat → Array Item
  | 0, arr, _ => arr
  | fuel + 1, arr, i =>
    if i < arr.size then
      let arr1 :=
        if less (arr.getD i default) (arr.getD (i - 6) default) then
          arrSwap arr i (i - 6)
        else
          arr
      shellPass6 less fuel arr1 (i + 1)
    else
      arr

/-- Inner loop of Go sort.insertionSort: for j from i while j > a and
data.Less(j, j-1), swap j and j-1 (with a = 0). -/
def insertionInner (less : Item → Item → Bool) : Array Item → Nat → Array Item
  | arr, 0 => arr
  | arr, j + 1 =>
    if less (arr.getD (j + 1) default) (arr.getD j default) then
      insertionInner less (arrSwap arr (j + 1) j) j
    else
      arr

/-- Outer loop of Go sort.insertionSort: for i from a+1 while i < b, insert
element i into the sorted prefix (with a = 0, b = size). -/
def insertionOuter (less : Item → Item → Bool) : Nat → Array Item → Nat → Array Item
  | 0, arr, _ => arr
  | fuel + 1, arr, i =>
    if i < arr.size then
      insertionOuter less fuel (insertionInner less arr i) (i + 1)
    else
      arr

/-- Embedding of sort.Slice(reqs, less) as implemented by Go sort.quickSort
in the releases contemporary with this code (1.8 through 1.18), restricted to
slices of at most 12 elements: for such slices the quicksort loop body never
runs and the whole call reduces to one gap-6 Shell pass followed by insertion
sort (skipped entirely when the slice has fewer than 2 elements). Every
concrete list this development evaluates the sort on has at most 12 elements;
no theorem quantifying over longer lists depends on the sorted output. Note
that sort.Slice is documented as not guaranteed to be stable. -/
def sortSlice (less : Item → Item → Bool) (l : List Item) : List Item :=
  let arr := l.toArray
  if arr.size > 1 then
    (insertionOuter less arr.size (shellPass6 less arr.size arr 6) 1).toList
  else
    l

/-- The stderr line written by fuzzySort when reading the request body
fails (matcher.go line 93). -/
def errLogMsg (e : String) : String :=
  "mocksy: error reading body of request while sorting: " ++ e ++ "\n"

/-- fuzzySort (matcher.go lines 87-105): returns immediately when reqs is
empty (before touching the body stream); otherwise reads the body exactly
once; on a read error it logs to stderr and returns with reqs in its original
order; otherwise it builds the comparison context and sorts reqs in place
with sort.Slice. The returned pair is the final contents of reqs together
with the trace of body reads and log writes. No error is ever returned to
the caller (the Go function has no error result). -/
def fuzzySort (reqs : List Item) (host : Host) (req : Request) :
    List Item × List Ev :=
  if reqs.length = 0 then
    (reqs, [])
  else
    match req.Body with
    | Except.error e => (reqs, [Ev.readBody, Ev.logErr (errLogMsg e)])
    | Except.ok body =>
      let args : compareArgs :=
        { Request := body
          Host := host
          Port := req.Port
          Protocol := req.Proto
          Method := req.Method
          Path := req.Path }
      (sortSlice (fuzzyLess args) reqs, [Ev.readBody])

/-- The process-wide mutable state of the mocksy package: the global
responseHistory list (matcher.go lines 15-21). -/
structure MocksyState where
  responseHistory : List Item
deriving DecidableEq, Repr

/-- AddToHistory (matcher.go lines 24-26): appends the item to the global
responseHistory. -/
def AddToHistory (itm : Item) (st : MocksyState) : MocksyState :=
  { st with responseHistory := st.responseHistory ++ [itm] }

/-- HistoryLength (matcher.go lines 28-30). -/
def HistoryLength (st : MocksyState) : Nat :=
  st.responseHistory.length

/-- FindMatching (matcher.go lines 35-42): resolves the host, filters the
global history by host into a fresh list viableReqs (filterByHost builds a
new slice with make/append, so its backing array is disjoint from the
store), sorts that fresh list in place, and returns the empty string. The
result triple is the returned string, the state of the global store after
the call, and the observed event trace. FindMatching performs no write to
responseHistory, and the in-place sort mutates only the fresh filtered
list, so the store after the call is the store before it. -/
def FindMatching (req : Request) (st : MocksyState) :
    String × MocksyState × List Ev :=
  let host := findHost req
  let viableReqs := filterByHost st.responseHistory host
  let sortOut := fuzzySort viableReqs host req
  ("", st, sortOut.2)

/-- Number of reads of the request body stream in an event trace. -/
def readCount (evs : List Ev) : Nat :=
  evs.countP (fun e =>
    match e with
    | Ev.readBody => true
    | _ => false)

/-- The six signals fuzzyLess extracts from one candidate against the
comparison context: the five boolean match flags, in cascade order, and the
absolute body-length difference. -/
structure RankKey where
  pathEq : Bool
  bodyEq : Bool
  methodEq : Bool
  protoEq : Bool
  portEq : Bool
  bodyDiff : Nat
deriving DecidableEq, Repr

/-- The key of one item, read off the same expressions fuzzyLess computes. -/
def rankKey (args : compareArgs) (r : Item) : RankKey :=
  { pathEq := (longestPrefixFn r.Path args.Path).2
    bodyEq := r.Request.Value == args.Request
    methodEq := r.Method == args.Method
    protoEq := r.Protocol == args.Protocol
    portEq := r.Port == args.Port
    bodyDiff := ((r.Request.Value.length : Int) - (args.Request.length : Int)).natAbs }

/-- Lexicographic strict comparison of keys, a match flag beating a mismatch
at each level and the smaller body-length difference winning the final
level. -/
def keyLt (k1 k2 : RankKey) : Bool :=
  if k1.pathEq ≠ k2.pathEq then k1.pathEq
  else if k1.bodyEq ≠ k2.bodyEq then k1.bodyEq
  else if k1.methodEq ≠ k2.methodEq then k1.methodEq
  else if k1.protoEq ≠ k2.protoEq then k1.protoEq
  else if k1.portEq ≠ k2.portEq then k1.portEq
  else decide (k1.bodyDiff < k2.bodyDiff)

theorem intAbsIf (a : Int) : (if a < 0 then -a else a) = (a.natAbs : Int) := by
  split <;> omega

/-- The comparator is exactly the lexicographic comparison of the two keys:
the inert method/closeness branch collapses because both of its arms return
the method comparison. -/
theorem fuzzyLess_eq_keyLt (args : compareArgs) (ra rb : Item) :
    fuzzyLess args ra rb = keyLt (rankKey args ra) (rankKey args rb) := by
  simp only [fuzzyLess, keyLt, rankKey, intAbsIf, Int.ofNat_lt, ite_self]

/-- Packing of the five boolean levels into one number, ordered so that a
smaller value means a better candidate. -/
def keyBits (k : RankKey) : Nat :=
  (if k.pathEq then 0 else 16) + (if k.bodyEq then 0 else 8) +
    (if k.methodEq then 0 else 4) + (if k.protoEq then 0 else 2) +
    (if k.portEq then 0 else 1)

/-- keyLt is the strict lexicographic order on (keyBits, bodyDiff). -/
theorem keyLt_iff (k1 k2 : RankKey) :
    keyLt k1 k2 = true ↔
      (keyBits k1 < keyBits k2 ∨
        (keyBits k1 = keyBits k2 ∧ k1.bodyDiff < k2.bodyDiff)) := by
  rcases k1 with ⟨p1, b1, m1, r1, o1, d1⟩
  rcases k2 with ⟨p2, b2, m2, r2, o2, d2⟩
  simp only [keyLt, keyBits]
  cases p1 <;> cases p2 <;> cases b1 <;> cases b2 <;> cases m1 <;> cases m2 <;>
    cases r1 <;> cases r2 <;> cases o1 <;> cases o2 <;> simp

/-- A key never beats itself. -/
theorem keyLt_irrefl (k : RankKey) : keyLt k k = false := by
  simp [keyLt]

/-- Negation of keyLt, phrased on the packed encoding. -/
theorem keyLt_false_iff (k1 k2 : RankKey) :
    keyLt k1 k2 = false ↔
      (keyBits k2 < keyBits k1 ∨
        (keyBits k1 = keyBits k2 ∧ k2.bodyDiff ≤ k1.bodyDiff)) := by
  rw [Bool.eq_false_iff, ne_eq, keyLt_iff]
  omega

/-- A Bool equality from an iff of the coerced propositions. -/
theorem boolEqOfIff {a b : Bool} (h : a = true ↔ b = true) : a = b := by
  cases a <;> cases b <;> simp_all

/-- The second component of the longestPrefix helper is the equality test. -/
theorem longestPrefixFn_snd (a b : String) :
    (longestPrefixFn a b).2 = decide (a = b) := by
  simp only [longestPrefixFn]
  split <;> simp_all

/-- When the path flags agree, the body flags agree, and exactly the first
method matches, the first key wins and the second loses. -/
theorem keyLt_method_level (k1 k2 : RankKey) (hp : k1.pathEq = k2.pathEq)
    (hb : k1.bodyEq = k2.bodyEq) (h1 : k1.methodEq = true)
    (h2 : k2.methodEq = false) :
    keyLt k1 k2 = true ∧ keyLt k2 k1 = false := by
  simp [keyLt, hp, hb, h1, h2]

/-- When exactly the first path matches, the first key wins and the second
loses. -/
theorem keyLt_path_level (k1 k2 : RankKey) (h1 : k1.pathEq = true)
    (h2 : k2.pathEq = false) :
    keyLt k1 k2 = true ∧ keyLt k2 k1 = false := by
  simp [keyLt, h1, h2]

/-- When all five boolean levels agree, keyLt is decided by the body-length
difference alone. -/
theorem keyLt_fallback_level (k1 k2 : RankKey) (hp : k1.pathEq = k2.pathEq)
    (hb : k1.bodyEq = k2.bodyEq) (hm : k1.methodEq = k2.methodEq)
    (hr : k1.protoEq = k2.protoEq) (ho : k1.portEq = k2.portEq) :
    (keyLt k1 k2 = true ↔ k1.bodyDiff < k2.bodyDiff) := by
  simp [keyLt, hp, hb, hm, hr, ho]

/-- The append-into-fresh-list loop of filterByHost is List.filter. -/
theorem filterByHost_eq_filter (lst : List Item) (host : Host) :
    filterByHost lst host =
      lst.filter (fun e => e.Host.Value == host.Value || e.Host.Ip == host.Ip) := by
  have aux : ∀ (l acc : List Item),
      (l.foldl
        (fun newlst e =>
          if e.Host.Value == host.Value || e.Host.Ip == host.Ip then
            newlst ++ [e]
          else
            newlst)
        acc) =
        acc ++ l.filter (fun e => e.Host.Value == host.Value || e.Host.Ip == host.Ip) := by
    intro l
    induction l with
    | nil => intro acc; simp
    | cons x xs ih =>
      intro acc
      rw [List.foldl_cons, List.filter_cons]
      by_cases h : (x.Host.Value == host.Value || x.Host.Ip == host.Ip) = true
      · rw [if_pos h, if_pos h, ih]
        simp
      · rw [if_neg h, if_neg h, ih]
  unfold filterByHost
  rw [aux lst []]
  simp

/-! Concrete fixtures used by witnesses and counterexamples. -/

/-- Comparison context of a request with path /p, method GET, protocol
HTTP/1.1, empty port and empty body, from host foo at 1.2.3.4. -/
def ctxArgs : compareArgs :=
  { Request := []
    Host := { Value := "foo", Ip := "1.2.3.4" }
    Port := ""
    Protocol := "HTTP/1.1"
    Method := "GET"
    Path := "/p" }

/-- Host fixture matching ctxArgs. -/
def cexHost : Host := { Value := "foo", Ip := "1.2.3.4" }

/-- A candidate agreeing with ctxArgs on every criterion. -/
def itemFull : Item :=
  { Host := { Value := "a1", Ip := "" }, Port := "", Protocol := "HTTP/1.1"
    Method := "GET", Path := "/p", Request := { Value := [] } }

/-- Same key as itemFull but a different item (distinct recorded host). -/
def itemFull2 : Item :=
  { Host := { Value := "a2", Ip := "" }, Port := "", Protocol := "HTTP/1.1"
    Method := "GET", Path := "/p", Request := { Value := [] } }

/-- A third item tied with itemFull and itemFull2. -/
def itemFull3 : Item :=
  { Host := { Value := "a3", Ip := "" }, Port := "", Protocol := "HTTP/1.1"
    Method := "GET", Path := "/p", Request := { Value := [] } }

/-- A candidate matching ctxArgs only on the path. -/
def itemMid : Item :=
  { Host := { Value := "m", Ip := "" }, Port := "9", Protocol := "X"
    Method := "POST", Path := "/p", Request := { Value := [1] } }

/-- A candidate matching ctxArgs on nothing. -/
def itemNone : Item :=
  { Host := { Value := "b", Ip := "" }, Port := "9", Protocol := "X"
    Method := "POST", Path := "/q", Request := { Value := [1] } }

/-- Method matches ctxArgs but the body (length 3) is farther from the
context body (length 0) than the body of itemNone (length 1). -/
def itemMethodFar : Item :=
  { Host := { Value := "c", Ip := "" }, Port := "9", Protocol := "X"
    Method := "GET", Path := "/q", Request := { Value := [1, 2, 3] } }

/-- The incoming request producing ctxArgs. -/
def cexReq : Request :=
  { Host := "foo", XForwardedFor := "1.2.3.4", RemoteAddr := "9.9.9.9:80"
    Method := "GET", Proto := "HTTP/1.1", Path := "/p", Port := ""
    Body := Except.ok [] }

/-- Same request with a failing body stream. -/
def errReq : Request :=
  { Host := "foo", XForwardedFor := "1.2.3.4", RemoteAddr := "9.9.9.9:80"
    Method := "GET", Proto := "HTTP/1.1", Path := "/p", Port := ""
    Body := Except.error "stream reset" }

/-- Eight filtered candidates: the tied pair itemFull (index 1) and
itemFull2 (index 6) among six copies of itemNone. -/
def cexList : List Item :=
  [itemNone, itemFull, itemNone, itemNone, itemNone, itemNone, itemFull2, itemNone]

/-- An empty history store. -/
def cexEmptyState : MocksyState := { responseHistory := [] }

/-! Claim theorems. -/

/-- C1: for every incoming request and every state of the history store,
FindMatching computes the ranking but returns only the empty string, never a
reference to the winning item. -/
theorem C1_FindMatching_returns_empty (req : Request) (st : MocksyState) :
    (FindMatching req st).1 = "" := rfl

/-- C2: when the path-exact and body-exact criteria do not discriminate and
exactly the first candidate has the context method, the comparator ranks the
method-matching candidate strictly better, whatever the body lengths are:
the closeness signal never changes this outcome. -/
theorem C2_method_match_wins (args : compareArgs) (ra rb : Item)
    (hpath : ra.Path = args.Path ↔ rb.Path = args.Path)
    (hbody : ra.Request.Value = args.Request ↔ rb.Request.Value = args.Request)
    (hma : ra.Method = args.Method) (hmb : rb.Method ≠ args.Method) :
    fuzzyLess args ra rb = true ∧ fuzzyLess args rb ra = false := by
  rw [fuzzyLess_eq_keyLt, fuzzyLess_eq_keyLt]
  have hp : (rankKey args ra).pathEq = (rankKey args rb).pathEq := by
    apply boolEqOfIff
    simp [rankKey, longestPrefixFn_snd, hpath]
  have hb : (rankKey args ra).bodyEq = (rankKey args rb).bodyEq := by
    apply boolEqOfIff
    simp [rankKey, hbody]
  have h1 : (rankKey args ra).methodEq = true := by simp [rankKey, hma]
  have h2 : (rankKey args rb).methodEq = false := by simp [rankKey, hmb]
  exact keyLt_method_level _ _ hp hb h1 h2

/-- Witness for C2: itemMethodFar matches the method GET with a body three
bytes away from the context body, itemNone has the wrong method with a body
only one byte away; the method match still wins both directions. -/
theorem C2_method_match_wins_witness :
    fuzzyLess ctxArgs itemMethodFar itemNone = true ∧
      fuzzyLess ctxArgs itemNone itemMethodFar = false :=
  C2_method_match_wins ctxArgs itemMethodFar itemNone (by decide) (by decide)
    (by decide) (by decide)

/-- C3: for every comparison context, the comparator is a strict weak
ordering on items: irreflexive, transitive, and with transitive
incomparability. -/
theorem C3_fuzzyLess_strict_weak_order (args : compareArgs) (a b c : Item) :
    fuzzyLess args a a = false ∧
      (fuzzyLess args a b = true → fuzzyLess args b c = true →
        fuzzyLess args a c = true) ∧
      (fuzzyLess args a b = false → fuzzyLess args b a = false →
        fuzzyLess args b c = false → fuzzyLess args c b = false →
        fuzzyLess args a c = false ∧ fuzzyLess args c a = false) := by
  simp only [fuzzyLess_eq_keyLt]
  refine ⟨keyLt_irrefl _, ?_, ?_⟩
  · intro h1 h2
    rw [keyLt_iff] at h1 h2 ⊢
    omega
  · intro h1 h2 h3 h4
    rw [keyLt_false_iff] at h1 h2 h3 h4
    rw [keyLt_false_iff, keyLt_false_iff]
    omega

/-- Witness for C3: transitivity applied at itemFull, itemMid, itemNone and
incomparability transitivity applied at the tied triple itemFull, itemFull2,
itemFull3, all under ctxArgs. -/
theorem C3_fuzzyLess_strict_weak_order_witness :
    fuzzyLess ctxArgs itemFull itemNone = true ∧
      (fuzzyLess ctxArgs itemFull itemFull3 = false ∧
        fuzzyLess ctxArgs itemFull3 itemFull = false) :=
  ⟨(C3_fuzzyLess_strict_weak_order ctxArgs itemFull itemMid itemNone).2.1
      (by decide) (by decide),
    (C3_fuzzyLess_strict_weak_order ctxArgs itemFull itemFull2 itemFull3).2.2
      (by decide) (by decide) (by decide) (by decide)⟩

/-- C4: the ranking pass is not stable. On eight filtered candidates with
the tied pair itemFull (input index 1, before) and itemFull2 (input index 6,
after), the gap-6 Shell pass of the Go sort swaps itemFull2 to the front, and
the sorted output lists itemFull2 before itemFull: two candidates the
comparator does not discriminate are reordered, although the input is in its
original recorded order. -/
theorem C4_sort_not_stable :
    itemFull ≠ itemFull2 ∧
      fuzzyLess ctxArgs itemFull itemFull2 = false ∧
      fuzzyLess ctxArgs itemFull2 itemFull = false ∧
      (fuzzySort cexList cexHost cexReq).1 =
        [itemFull2, itemFull, itemNone, itemNone, itemNone, itemNone,
          itemNone, itemNone] := by
  refine ⟨by decide, by decide, by decide, ?_⟩
  decide

/-- C5: a candidate whose recorded path equals the context path strictly
beats any candidate whose path does not, whatever the bodies, methods,
protocols and ports. -/
theorem C5_path_match_dominates (args : compareArgs) (ra rb : Item)
    (ha : ra.Path = args.Path) (hb : rb.Path ≠ args.Path) :
    fuzzyLess args ra rb = true ∧ fuzzyLess args rb ra = false := by
  rw [fuzzyLess_eq_keyLt, fuzzyLess_eq_keyLt]
  have h1 : (rankKey args ra).pathEq = true := by
    simp [rankKey, longestPrefixFn_snd, ha]
  have h2 : (rankKey args rb).pathEq = false := by
    simp [rankKey, longestPrefixFn_snd, hb]
  exact keyLt_path_level _ _ h1 h2

/-- Witness for C5, the end-to-end scenario 2: incoming path /x with method
GET; the item with path /x and method POST ranks before the item with path
/y and method GET. -/
theorem C5_path_match_dominates_witness :
    fuzzyLess
        { Request := [], Host := { Value := "foo", Ip := "" }, Port := ""
          Protocol := "HTTP/1.1", Method := "GET", Path := "/x" }
        { Host := { Value := "foo", Ip := "" }, Port := ""
          Protocol := "HTTP/1.1", Method := "POST", Path := "/x"
          Request := { Value := [] } }
        { Host := { Value := "foo", Ip := "" }, Port := ""
          Protocol := "HTTP/1.1", Method := "GET", Path := "/y"
          Request := { Value := [] } } = true ∧
      fuzzyLess
        { Request := [], Host := { Value := "foo", Ip := "" }, Port := ""
          Protocol := "HTTP/1.1", Method := "GET", Path := "/x" }
        { Host := { Value := "foo", Ip := "" }, Port := ""
          Protocol := "HTTP/1.1", Method := "GET", Path := "/y"
          Request := { Value := [] } }
        { Host := { Value := "foo", Ip := "" }, Port := ""
          Protocol := "HTTP/1.1", Method := "POST", Path := "/x"
          Request := { Value := [] } } = false :=
  C5_path_match_dominates _ _ _ (by decide) (by decide)

/-- C6: filterByHost keeps exactly the items whose host value equals the
target value or whose host ip equals the target ip (logical OR), preserves
the relative order of the input (the result is a sublist of the input), and
yields the empty list, not an error, when nothing matches. -/
theorem C6_filterByHost_spec (lst : List Item) (host : Host) :
    filterByHost lst host =
      lst.filter (fun e => e.Host.Value == host.Value || e.Host.Ip == host.Ip) ∧
      (∀ e : Item, e ∈ filterByHost lst host ↔
        (e ∈ lst ∧ (e.Host.Value = host.Value ∨ e.Host.Ip = host.Ip))) ∧
      (filterByHost lst host).Sublist lst ∧
      ((∀ e ∈ lst, e.Host.Value ≠ host.Value ∧ e.Host.Ip ≠ host.Ip) →
        filterByHost lst host = []) := by
  refine ⟨filterByHost_eq_filter lst host, ?_, ?_, ?_⟩
  · intro e
    rw [filterByHost_eq_filter]
    simp [List.mem_filter]
  · rw [filterByHost_eq_filter]
    exact List.filter_sublist lst
  · intro h
    rw [filterByHost_eq_filter]
    rw [List.filter_eq_nil_iff]
    intro a ha
    have := h a ha
    simp [this.1, this.2]

/-- Witness for C6: an item recorded under host b with empty ip is dropped
when filtering for host foo at 1.2.3.4, giving the empty list. -/
theorem C6_filterByHost_spec_witness : filterByHost [itemNone] cexHost = [] :=
  (C6_filterByHost_spec [itemNone] cexHost).2.2.2 (by decide)

/-- C7: when the path, body-exact, method, protocol and port criteria all
fail to discriminate, the comparator prefers the candidate whose body length
is closer to the context body length, and only that one. -/
theorem C7_body_length_fallback (args : compareArgs) (ra rb : Item)
    (hpath : ra.Path = args.Path ↔ rb.Path = args.Path)
    (hbody : ra.Request.Value = args.Request ↔ rb.Request.Value = args.Request)
    (hmeth : ra.Method = args.Method ↔ rb.Method = args.Method)
    (hproto : ra.Protocol = args.Protocol ↔ rb.Protocol = args.Protocol)
    (hport : ra.Port = args.Port ↔ rb.Port = args.Port) :
    (fuzzyLess args ra rb = true ↔
      ((ra.Request.Value.length : Int) - (args.Request.length : Int)).natAbs <
        ((rb.Request.Value.length : Int) - (args.Request.length : Int)).natAbs) := by
  rw [fuzzyLess_eq_keyLt]
  have hp : (rankKey args ra).pathEq = (rankKey args rb).pathEq := by
    apply boolEqOfIff
    simp [rankKey, longestPrefixFn_snd, hpath]
  have hb : (rankKey args ra).bodyEq = (rankKey args rb).bodyEq := by
    apply boolEqOfIff
    simp [rankKey, hbody]
  have hm : (rankKey args ra).methodEq = (rankKey args rb).methodEq := by
    apply boolEqOfIff
    simp [rankKey, hmeth]
  have hr : (rankKey args ra).protoEq = (rankKey args rb).protoEq := by
    apply boolEqOfIff
    simp [rankKey, hproto]
  have ho : (rankKey args ra).portEq = (rankKey args rb).portEq := by
    apply boolEqOfIff
    simp [rankKey, hport]
  rw [keyLt_fallback_level _ _ hp hb hm hr ho]
  simp [rankKey]

/-- Witness for C7, the end-to-end scenario 4: incoming body of length 100;
two otherwise identical items with body lengths 95 (difference 5) and 50
(difference 50); the closer one ranks strictly better. -/
theorem C7_body_length_fallback_witness :
    fuzzyLess
        { Request := List.replicate 100 7, Host := { Value := "foo", Ip := "" }
          Port := "80", Protocol := "HTTP/1.1", Method := "GET", Path := "/s" }
        { Host := { Value := "foo", Ip := "" }, Port := "80"
          Protocol := "HTTP/1.1", Method := "GET", Path := "/s"
          Request := { Value := List.replicate 95 7 } }
        { Host := { Value := "foo", Ip := "" }, Port := "80"
          Protocol := "HTTP/1.1", Method := "GET", Path := "/s"
          Request := { Value := List.replicate 50 7 } } = true :=
  (C7_body_length_fallback _ _ _ (by decide) (by decide) (by decide) (by decide)
      (by decide)).mpr (by decide)

/-- C8: when reading the incoming request body fails, fuzzySort leaves the
candidate list exactly in its pre-sort order, writes the failure to the
operational log (one stderr line, emitted whenever the read was attempted,
that is whenever the list is non-empty), and returns no error to the caller:
the function has no error result at all, so the overall match operation
cannot fail. -/
theorem C8_body_read_error_aborts_sort (reqs : List Item) (host : Host)
    (req : Request) (e : String) (he : req.Body = Except.error e) :
    (fuzzySort reqs host req).1 = reqs ∧
      (reqs ≠ [] →
        (fuzzySort reqs host req).2 = [Ev.readBody, Ev.logErr (errLogMsg e)]) := by
  by_cases h : reqs.length = 0
  · have hnil : reqs = [] := List.length_eq_zero.mp h
    subst hnil
    simp [fuzzySort]
  · simp [fuzzySort, h, he]

/-- Witness for C8: a one-candidate list and a request whose body stream
fails with a stream reset; the list comes back unchanged and the log carries
the stderr line. -/
theorem C8_body_read_error_aborts_sort_witness :
    (fuzzySort [itemNone] cexHost errReq).1 = [itemNone] ∧
      (fuzzySort [itemNone] cexHost errReq).2 =
        [Ev.readBody, Ev.logErr (errLogMsg "stream reset")] :=
  ⟨(C8_body_read_error_aborts_sort [itemNone] cexHost errReq "stream reset" rfl).1,
    (C8_body_read_error_aborts_sort [itemNone] cexHost errReq "stream reset" rfl).2
      (by decide)⟩

/-- C9, counterexample to the claim as stated: with an empty history store
the host-filtered candidate set is empty and FindMatching returns before
ever touching the body stream, so the body is read zero times, not exactly
once. -/
theorem C9_body_read_cex :
    readCount (FindMatching cexReq cexEmptyState).2.2 = 0 ∧
      readCount (FindMatching cexReq cexEmptyState).2.2 ≠ 1 := by
  refine ⟨?_, ?_⟩ <;> decide

/-- C9 as amended: FindMatching reads the incoming request body stream
exactly once when the host-filtered candidate set is non-empty, and zero
times when that set is empty; in every case it reads the body at most
once. -/
theorem C9_body_read_at_most_once (req : Request) (st : MocksyState) :
    readCount (FindMatching req st).2.2 =
      (if filterByHost st.responseHistory (findHost req) = [] then 0 else 1) ∧
      readCount (FindMatching req st).2.2 ≤ 1 := by
  have hmain : readCount (FindMatching req st).2.2 =
      (if filterByHost st.responseHistory (findHost req) = [] then 0 else 1) := by
    simp only [FindMatching, fuzzySort]
    by_cases h : (filterByHost st.responseHistory (findHost req)).length = 0
    · have hnil : filterByHost st.responseHistory (findHost req) = [] :=
        List.length_eq_zero.mp h
      simp [h, hnil, readCount]
    · have hne : ¬(filterByHost st.responseHistory (findHost req) = []) := by
        intro hx
        exact h (by simp [hx])
      cases hb : req.Body <;> simp [h, hne, hb, readCount]
  refine ⟨hmain, ?_⟩
  rw [hmain]
  split <;> omega

/-- C10: FindMatching leaves the process-wide history store unchanged: the
state after the call is the state before it (same length, same elements,
same order). In the source this holds because FindMatching never assigns to
responseHistory and because filterByHost builds its result with make and
append into a fresh backing array, so the in-place sort of the filtered list
cannot touch the store. -/
theorem C10_store_unchanged (req : Request) (st : MocksyState) :
    (FindMatching req st).2.1 = st ∧
      HistoryLength ((FindMatching req st).2.1) = HistoryLength st :=
  ⟨rfl, rfl⟩

end Mocksy
